import Mathlib

set_option maxRecDepth 8000

/-!
Verification development for the LLMObs telemetry writer
(`ddtrace/llmobs/_writer.py`).

The Python module is shallowly embedded as follows:
* Python JSON-serializable values (the payloads of `meta` / `metrics` and the
  evaluation-metric events, which are plain dicts) become the inductive
  `PyVal`; the constructor `vobj` stands for a Python object that
  `json.dumps` cannot serialize (on which `json.dumps` raises `TypeError`).
* `json.dumps` with its default options becomes `dumpsVal` (returning
  `Except Unit String`; `.error ()` models the raised `TypeError`).
  Only ASCII text without control characters is used in concrete inputs, so
  the `ensure_ascii` behaviour of Python for non-ASCII code points is not
  exercised.
* Each stateful class becomes a state structure plus explicit
  state-passing functions; locks are dropped (the embedding is sequential),
  log calls become explicit `LogEvent` values in the result, and the HTTP
  exchange is an oracle argument (`HttpResult`).
* Python dicts are association lists in insertion order; `TypedDict` events
  are structures serialized with their keys in field-declaration order.
* A Python exception that escapes a function is modelled by a `raised` flag
  (or an `Except.error`) in its result; the state components of the result
  reflect the mutations performed before the raise.
-/

namespace LLMObs

/-- Python-side JSON-like value: the domain of `json.dumps`.  `vobj`
models a Python object that is not JSON serializable. -/
inductive PyVal where
  | vnull : PyVal
  | vbool : Bool → PyVal
  | vint : Int → PyVal
  | vstr : String → PyVal
  | vlist : List PyVal → PyVal
  | vdict : List (String × PyVal) → PyVal
  | vobj : String → PyVal

/-- Lower-case hexadecimal digit, for JSON `\u00XX` escapes. -/
def hexDigit (n : Nat) : Char :=
  if n < 10 then Char.ofNat (48 + n) else Char.ofNat (87 + n)

/-- JSON escaping of a single character, as `json.dumps` does for ASCII
input: `"`, `\`, and control characters are escaped, everything else is
kept as-is. -/
def escChar (c : Char) : List Char :=
  if c = '"' then ['\\', '"']
  else if c = '\\' then ['\\', '\\']
  else if c = '\n' then ['\\', 'n']
  else if c = '\t' then ['\\', 't']
  else if c = '\r' then ['\\', 'r']
  else if c = '\x08' then ['\\', 'b']
  else if c = '\x0c' then ['\\', 'f']
  else if c.toNat < 32 then
    ['\\', 'u', '0', '0', hexDigit (c.toNat / 16), hexDigit (c.toNat % 16)]
  else [c]

/-- JSON escaping of a whole string. -/
def escStr (s : String) : String := String.mk (s.data.flatMap escChar)

/-- A JSON string literal: `"` + escaped body + `"`. -/
def jstr (s : String) : String := "\"" ++ escStr s ++ "\""

/-- `sep.join parts` as Python's `str.join` does it. -/
def joinSep (sep : String) : List String → String
  | [] => ""
  | [x] => x
  | x :: y :: xs => x ++ sep ++ joinSep sep (y :: xs)

mutual

/-- Model of Python `json.dumps` with its default options (separators
`", "` and `": "`).  Raising `TypeError` on a non-serializable value is
modelled as `.error ()`. -/
def dumpsVal : PyVal → Except Unit String
  | .vnull => .ok "null"
  | .vbool true => .ok "true"
  | .vbool false => .ok "false"
  | .vint n => .ok (toString n)
  | .vstr s => .ok (jstr s)
  | .vlist xs =>
    match dumpsItems xs with
    | .error e => .error e
    | .ok parts => .ok ("[" ++ joinSep ", " parts ++ "]")
  | .vdict kvs =>
    match dumpsPairs kvs with
    | .error e => .error e
    | .ok parts => .ok ("\x7b" ++ joinSep ", " parts ++ "\x7d")
  | .vobj _ => .error ()

/-- Serialize the elements of a JSON array. -/
def dumpsItems : List PyVal → Except Unit (List String)
  | [] => .ok []
  | x :: xs =>
    match dumpsVal x with
    | .error e => .error e
    | .ok s =>
      match dumpsItems xs with
      | .error e => .error e
      | .ok rest => .ok (s :: rest)

/-- Serialize the `"key": value` members of a JSON object. -/
def dumpsPairs : List (String × PyVal) → Except Unit (List String)
  | [] => .ok []
  | (k, v) :: kvs =>
    match dumpsVal v with
    | .error e => .error e
    | .ok s =>
      match dumpsPairs kvs with
      | .error e => .error e
      | .ok rest => .ok ((jstr k ++ ": " ++ s) :: rest)

end

/-- `LLMObsSpanEvent` (a `TypedDict` in the source): one span event.  The
`meta` and `metrics` dicts hold arbitrary JSON-like values; `duration` is a
number (serialized via `toString`, integral values in this development). -/
structure LLMObsSpanEvent where
  span_id : String
  trace_id : String
  parent_id : String
  session_id : String
  tags : List String
  service : String
  name : String
  start_ns : Int
  duration : Int
  status : String
  status_message : String
  meta : List (String × PyVal)
  metrics : List (String × PyVal)
  collection_errors : List String

/-- The span event viewed as the Python dict `json.dumps` receives, keys in
`TypedDict` declaration order. -/
def LLMObsSpanEvent.toPy (e : LLMObsSpanEvent) : PyVal :=
  .vdict [("span_id", .vstr e.span_id), ("trace_id", .vstr e.trace_id),
    ("parent_id", .vstr e.parent_id), ("session_id", .vstr e.session_id),
    ("tags", .vlist (e.tags.map .vstr)), ("service", .vstr e.service),
    ("name", .vstr e.name), ("start_ns", .vint e.start_ns),
    ("duration", .vint e.duration), ("status", .vstr e.status),
    ("status_message", .vstr e.status_message), ("meta", .vdict e.meta),
    ("metrics", .vdict e.metrics),
    ("collection_errors", .vlist (e.collection_errors.map .vstr))]

/-- `json.dumps(event)` for a span event. -/
def dumpsSpanEvent (e : LLMObsSpanEvent) : Except Unit String :=
  dumpsVal e.toPy

/-- Modelled from the spec: `EVP_EVENT_SIZE_LIMIT` lives in the missing
`ddtrace/llmobs/_constants.py`; the spec fixes it as the 1 MiB per-event
hard limit. -/
def EVP_EVENT_SIZE_LIMIT : Nat := 1024 * 1024

/-- Modelled from the spec: `EVP_PAYLOAD_SIZE_LIMIT` lives in the missing
`ddtrace/llmobs/_constants.py`; the spec fixes it as the 5 MiB per-request
payload soft limit. -/
def EVP_PAYLOAD_SIZE_LIMIT : Nat := 5 * (1024 * 1024)

/-- Modelled from the spec: `DROPPED_VALUE_TEXT` (missing
`ddtrace/llmobs/_constants.py`) is the fixed placeholder that replaces a
truncated input/output value; its exact text is immaterial here. -/
def DROPPED_VALUE_TEXT : String :=
  "[This value has been dropped because this span size exceeds the 1MB size limit.]"

/-- Modelled from the spec: `DROPPED_IO_COLLECTION_ERROR` (missing
`ddtrace/llmobs/_constants.py`) is the fixed collection-error marker
recorded on truncation. -/
def DROPPED_IO_COLLECTION_ERROR : String := "dropped_io"

/-- Python dict assignment `d[k] = v` on an insertion-ordered association
list (dict keys are unique, so the first occurrence is the occurrence):
replace in place if the key is present, append otherwise. -/
def setKey (kvs : List (String × PyVal)) (k : String) (v : PyVal) :
    List (String × PyVal) :=
  match kvs with
  | [] => [(k, v)]
  | p :: rest => if p.1 == k then (k, v) :: rest else p :: setKey rest k v

/-- Look a key up in an association list (Python `d[k]` / `d.get(k)`). -/
def getKey (kvs : List (String × PyVal)) (k : String) : Option PyVal :=
  match kvs with
  | [] => none
  | p :: rest => if p.1 == k then some p.2 else getKey rest k

/-- The truncation placeholder object `{"value": DROPPED_VALUE_TEXT}`. -/
def droppedValuePlaceholder : PyVal :=
  .vdict [("value", .vstr DROPPED_VALUE_TEXT)]

/-- `_truncate_span_event`: overwrite `meta["input"]` and `meta["output"]`
with the placeholder and set `collection_errors` to the one-element list
holding the drop marker. -/
def _truncate_span_event (event : LLMObsSpanEvent) : LLMObsSpanEvent :=
  { event with
    meta := setKey (setKey event.meta "input" droppedValuePlaceholder)
      "output" droppedValuePlaceholder,
    collection_errors := [DROPPED_IO_COLLECTION_ERROR] }

/-- The distinct logger calls of the module, with the data they format. -/
inductive LogEvent where
  | warnBufferFull (cls : String) (limit : Nat) : LogEvent
  | errorEncodeFailed (count : Nat) (eventType : String) : LogEvent
  | errorSendFailedStatus (count : Nat) (eventType : String) (status : Nat) : LogEvent
  | errorSendFailedExn (count : Nat) (eventType : String) : LogEvent
  | debugSent (count : Nat) (eventType : String) : LogEvent
  | warnEventTooLarge (size : Nat) : LogEvent
  | debugFlushLimit : LogEvent
  | debugEncode (count : Nat) : LogEvent
  | errorEncodeSpansFailed (count : Nat) : LogEvent
deriving DecidableEq

/-- Outcome of one HTTP exchange, supplied as an oracle: a response with
a status code, or a raised transport exception. -/
inductive HttpResult where
  | response : Nat → HttpResult
  | exn : HttpResult
deriving DecidableEq

/-- The buffer capacity `self._buffer_limit = 1000` used by both the base
writer and the span encoder. -/
def BUFFER_LIMIT : Nat := 1000

/-- Mutable state of `BaseLLMObsWriter`: its event buffer (eval-metric
events are plain dicts, hence `PyVal`). -/
structure BaseWriterState where
  buffer : List PyVal

namespace BaseLLMObsWriter

/-- `BaseLLMObsWriter._enqueue`: append unless the buffer is full, in which
case warn and drop. -/
def _enqueue (st : BaseWriterState) (event : PyVal) :
    BaseWriterState × List LogEvent :=
  if BUFFER_LIMIT ≤ st.buffer.length then
    (st, [.warnBufferFull "BaseLLMObsWriter" BUFFER_LIMIT])
  else
    (⟨st.buffer ++ [event]⟩, [])

/-- Result of one `periodic` flush cycle: the post state, the batch that
was atomically detached, the request body actually POSTed (none when
nothing was sent), and the log output. -/
structure PeriodicResult where
  state : BaseWriterState
  detached : List PyVal
  sent : Option String
  logs : List LogEvent

/-- `BaseLLMObsWriter.periodic`, parametrized by the subclass `_data`
envelope and `_event_type`: detach the buffer; if empty do nothing; encode
(`TypeError` caught, batch discarded); POST and log the outcome
(failures absorbed, batch never requeued). -/
def periodic (dataFn : List PyVal → PyVal) (eventType : String)
    (st : BaseWriterState) (http : HttpResult) : PeriodicResult :=
  if st.buffer.isEmpty then ⟨st, [], none, []⟩
  else
    let events := st.buffer
    let st1 : BaseWriterState := ⟨[]⟩
    match dumpsVal (dataFn events) with
    | .error _ => ⟨st1, events, none, [.errorEncodeFailed events.length eventType]⟩
    | .ok payload =>
      match http with
      | .response status =>
        if 300 ≤ status then
          ⟨st1, events, some payload,
            [.errorSendFailedStatus events.length eventType status]⟩
        else
          ⟨st1, events, some payload, [.debugSent events.length eventType]⟩
      | .exn =>
        ⟨st1, events, some payload, [.errorSendFailedExn events.length eventType]⟩

end BaseLLMObsWriter

namespace LLMObsEvalMetricWriter

/-- `LLMObsEvalMetricWriter._data`: the eval-metric payload envelope. -/
def _data (events : List PyVal) : PyVal :=
  .vdict [("data", .vdict [("type", .vstr "evaluation_metric"),
    ("attributes", .vdict [("metrics", .vlist events)])])]

/-- `LLMObsEvalMetricWriter.enqueue`: delegates to the base `_enqueue`. -/
def enqueue (st : BaseWriterState) (event : PyVal) :
    BaseWriterState × List LogEvent :=
  BaseLLMObsWriter._enqueue st event

/-- The eval-metric writer's periodic flush. -/
def periodic (st : BaseWriterState) (http : HttpResult) :
    BaseLLMObsWriter.PeriodicResult :=
  BaseLLMObsWriter.periodic _data "evaluation_metric" st http

end LLMObsEvalMetricWriter

/-- Mutable state of `LLMObsSpanEncoder`: the event buffer and the running
`buffer_size`. -/
structure EncoderState where
  buffer : List LLMObsSpanEvent
  buffer_size : Nat

namespace LLMObsSpanEncoder

/-- `LLMObsSpanEncoder._init_buffer`: empty buffer, `buffer_size = 0`. -/
def _init_buffer : EncoderState := ⟨[], 0⟩

/-- Result of `put`: the post state, log output, and whether a `TypeError`
escaped (`json.dumps(events)` runs after the buffer was extended). -/
structure PutResult where
  state : EncoderState
  logs : List LogEvent
  raised : Bool

/-- `LLMObsSpanEncoder.put`: drop with a warning when full; otherwise
extend the buffer and add `len(json.dumps(events))` to `buffer_size`. -/
def put (st : EncoderState) (events : List LLMObsSpanEvent) : PutResult :=
  if BUFFER_LIMIT ≤ st.buffer.length then
    ⟨st, [.warnBufferFull "LLMObsSpanEncoder" BUFFER_LIMIT], false⟩
  else
    match dumpsVal (.vlist (events.map LLMObsSpanEvent.toPy)) with
    | .ok s => ⟨⟨st.buffer ++ events, st.buffer_size + s.length⟩, [], false⟩
    | .error _ => ⟨⟨st.buffer ++ events, st.buffer_size⟩, [], true⟩

/-- The span payload envelope
`{"_dd.stage": "raw", "event_type": "span", "spans": events}`. -/
def spansEnvelope (events : List LLMObsSpanEvent) : PyVal :=
  .vdict [("_dd.stage", .vstr "raw"), ("event_type", .vstr "span"),
    ("spans", .vlist (events.map LLMObsSpanEvent.toPy))]

/-- Result of `encode`: the post state, the returned payload (none when
the buffer was empty or serialization failed), and the log output. -/
structure EncodeResult where
  state : EncoderState
  payload : Option String
  logs : List LogEvent

/-- `LLMObsSpanEncoder.encode`: nothing to do on an empty buffer;
otherwise atomically detach and re-init the buffer, then serialize the
envelope (`TypeError` caught, batch discarded). -/
def encode (st : EncoderState) : EncodeResult :=
  if st.buffer.isEmpty then ⟨st, none, []⟩
  else
    let events := st.buffer
    let st1 := _init_buffer
    match dumpsVal (spansEnvelope events) with
    | .ok s => ⟨st1, some s, [.debugEncode events.length]⟩
    | .error _ => ⟨st1, none, [.errorEncodeSpansFailed events.length]⟩

end LLMObsSpanEncoder

/-- Mutable state of `LLMObsSpanWriter`: the encoder states of its owned
clients (both construction modes create exactly one client). -/
structure SpanWriterState where
  clients : List EncoderState

namespace LLMObsSpanWriter

/-- Modelled from the spec: `HTTPWriter._flush_queue_with_client` is not in
`src/`; per the spec a forced out-of-cycle flush encodes the client's
buffer (the atomic detach re-initializes it) and performs the HTTP send,
absorbing transport failures.  Only the encoder state and logs are
relevant to the writer's state. -/
def _flush_queue_with_client (c : EncoderState) :
    EncoderState × List LogEvent :=
  let r := LLMObsSpanEncoder.encode c
  (r.state, r.logs)

/-- Modelled from the spec: `HTTPWriter.write` is not in `src/`; per the
spec it hands the event list to each owned client's encoder via `put`.
A `TypeError` raised by `put` propagates, stopping the iteration. -/
def write (clients : List EncoderState) (events : List LLMObsSpanEvent) :
    List EncoderState × List LogEvent × Bool :=
  match clients with
  | [] => ([], [], false)
  | c :: cs =>
    let r := LLMObsSpanEncoder.put c events
    if r.raised then (r.state :: cs, r.logs, true)
    else
      let (cs1, logs1, b) := write cs events
      (r.state :: cs1, r.logs ++ logs1, b)

/-- Result of `LLMObsSpanWriter.enqueue`: post state, log output, and
whether an exception escaped to the producer. -/
structure EnqueueResult where
  state : SpanWriterState
  logs : List LogEvent
  raised : Bool

/-- `LLMObsSpanWriter.enqueue`: compute `len(json.dumps(event))`
(an unguarded `TypeError` propagates); truncate when at or above
`EVP_EVENT_SIZE_LIMIT` (without recomputing `event_size`); force a flush of
every client whose `buffer_size + event_size` exceeds
`EVP_PAYLOAD_SIZE_LIMIT`; finally `write([event])`. -/
def enqueue (st : SpanWriterState) (event : LLMObsSpanEvent) : EnqueueResult :=
  match dumpsSpanEvent event with
  | .error _ => ⟨st, [], true⟩
  | .ok s =>
    let event_size := s.length
    let (event1, logs1) :=
      if EVP_EVENT_SIZE_LIMIT ≤ event_size then
        (_truncate_span_event event, [LogEvent.warnEventTooLarge event_size])
      else (event, ([] : List LogEvent))
    let flushed := st.clients.map (fun c =>
      if EVP_PAYLOAD_SIZE_LIMIT < c.buffer_size + event_size then
        let f := _flush_queue_with_client c
        (f.1, LogEvent.debugFlushLimit :: f.2)
      else (c, ([] : List LogEvent)))
    let clients1 := flushed.map Prod.fst
    let logs2 := flushed.flatMap Prod.snd
    let (clients2, logs3, raised) := write clients1 [event1]
    ⟨⟨clients2⟩, logs1 ++ logs2 ++ logs3, raised⟩

end LLMObsSpanWriter

end LLMObs


namespace LLMObs

/-! ### Association-list lemmas for `setKey` / `getKey` -/

theorem setKey_setKey_same (m : List (String × PyVal)) (k : String) (v : PyVal) :
    setKey (setKey m k v) k v = setKey m k v := by
  induction m with
  | nil => simp [setKey]
  | cons p rest ih =>
    by_cases h : p.1 = k
    · simp [setKey, h]
    · simp only [setKey, beq_iff_eq, h, if_false]
      rw [ih]

theorem setKey_restore (m : List (String × PyVal)) (k k' : String)
    (v v' : PyVal) (hkk : k' ≠ k) :
    setKey (setKey (setKey m k v) k' v') k v = setKey (setKey m k v) k' v' := by
  have hkk2 : k ≠ k' := fun h => hkk h.symm
  induction m with
  | nil => simp [setKey, hkk2]
  | cons p rest ih =>
    by_cases h : p.1 = k
    · simp [setKey, h, hkk2]
    · simp only [setKey, beq_iff_eq, h, if_false]
      by_cases h' : p.1 = k'
      · simp [setKey, h', h, hkk, setKey_setKey_same]
      · simp only [setKey, beq_iff_eq, h', h, if_false]
        rw [ih]

theorem getKey_setKey_self (m : List (String × PyVal)) (k : String) (v : PyVal) :
    getKey (setKey m k v) k = some v := by
  induction m with
  | nil => simp [setKey, getKey]
  | cons p rest ih =>
    by_cases h : p.1 = k
    · simp [setKey, getKey, h]
    · simp [setKey, getKey, h, ih]

theorem getKey_setKey_other (m : List (String × PyVal)) (k : String) (v : PyVal)
    (k' : String) (hk : k' ≠ k) :
    getKey (setKey m k v) k' = getKey m k' := by
  have hk2 : k ≠ k' := fun h => hk h.symm
  induction m with
  | nil => simp [setKey, getKey, hk2]
  | cons p rest ih =>
    by_cases h : p.1 = k
    · simp [setKey, getKey, h, hk2]
    · by_cases h' : p.1 = k'
      · simp [setKey, getKey, h, h', hk]
      · simp [setKey, getKey, h, h', ih]

/-! ### Truncation (`_truncate_span_event`) lemmas -/

theorem truncate_fields (e : LLMObsSpanEvent) :
    (_truncate_span_event e).span_id = e.span_id ∧
    (_truncate_span_event e).trace_id = e.trace_id ∧
    (_truncate_span_event e).parent_id = e.parent_id ∧
    (_truncate_span_event e).session_id = e.session_id ∧
    (_truncate_span_event e).tags = e.tags ∧
    (_truncate_span_event e).service = e.service ∧
    (_truncate_span_event e).name = e.name ∧
    (_truncate_span_event e).start_ns = e.start_ns ∧
    (_truncate_span_event e).duration = e.duration ∧
    (_truncate_span_event e).status = e.status ∧
    (_truncate_span_event e).status_message = e.status_message :=
  ⟨rfl, rfl, rfl, rfl, rfl, rfl, rfl, rfl, rfl, rfl, rfl⟩

theorem truncate_idem (e : LLMObsSpanEvent) :
    _truncate_span_event (_truncate_span_event e) = _truncate_span_event e := by
  unfold _truncate_span_event
  have hio : ("output" : String) ≠ "input" := by decide
  congr 1
  rw [setKey_restore e.meta "input" "output" droppedValuePlaceholder
    droppedValuePlaceholder hio]
  exact setKey_setKey_same (setKey e.meta "input" droppedValuePlaceholder)
    "output" droppedValuePlaceholder


/-- A small concrete span event used as a base for concrete instantiations. -/
def sampleEvent : LLMObsSpanEvent :=
  { span_id := "1", trace_id := "2", parent_id := "3", session_id := "4",
    tags := [], service := "s", name := "n", start_ns := 0, duration := 0,
    status := "ok", status_message := "", meta := [], metrics := [],
    collection_errors := [] }

/-- A concrete span event that already carries a collection error and an
`input` meta entry, exercising the truncation transform. -/
def c2CexEvent : LLMObsSpanEvent :=
  { sampleEvent with
    meta := [("input", .vstr "big input"), ("other", .vnull)],
    collection_errors := ["earlier_error"] }

/-- C2, counterexample: the truncation transform does not append the
collection-error marker to the existing `collection_errors` sequence; on an
event whose `collection_errors` is `["earlier_error"]` the result is the
one-element list `[DROPPED_IO_COLLECTION_ERROR]`, not
`["earlier_error", DROPPED_IO_COLLECTION_ERROR]`. -/
theorem claim_C2_counterexample :
    (_truncate_span_event c2CexEvent).collection_errors ≠
      c2CexEvent.collection_errors ++ [DROPPED_IO_COLLECTION_ERROR] := by
  decide

/-- C2 (amended): the truncation transform replaces exactly the two meta
fields `input` and `output` with the fixed placeholder and replaces the
event's `collection_errors` with the one-element sequence holding the fixed
marker (rather than appending to it), leaving every other event field, and
every other meta key, unchanged. -/
theorem claim_C2_theorem (e : LLMObsSpanEvent) :
    (_truncate_span_event e).span_id = e.span_id ∧
    (_truncate_span_event e).trace_id = e.trace_id ∧
    (_truncate_span_event e).parent_id = e.parent_id ∧
    (_truncate_span_event e).session_id = e.session_id ∧
    (_truncate_span_event e).tags = e.tags ∧
    (_truncate_span_event e).service = e.service ∧
    (_truncate_span_event e).name = e.name ∧
    (_truncate_span_event e).start_ns = e.start_ns ∧
    (_truncate_span_event e).duration = e.duration ∧
    (_truncate_span_event e).status = e.status ∧
    (_truncate_span_event e).status_message = e.status_message ∧
    (_truncate_span_event e).metrics = e.metrics ∧
    getKey (_truncate_span_event e).meta "input" = some droppedValuePlaceholder ∧
    getKey (_truncate_span_event e).meta "output" = some droppedValuePlaceholder ∧
    (∀ k, k ≠ "input" → k ≠ "output" →
      getKey (_truncate_span_event e).meta k = getKey e.meta k) ∧
    (_truncate_span_event e).collection_errors = [DROPPED_IO_COLLECTION_ERROR] := by
  refine ⟨rfl, rfl, rfl, rfl, rfl, rfl, rfl, rfl, rfl, rfl, rfl, rfl, ?_, ?_, ?_, rfl⟩
  · show getKey (setKey (setKey e.meta "input" droppedValuePlaceholder)
      "output" droppedValuePlaceholder) "input" = some droppedValuePlaceholder
    rw [getKey_setKey_other _ _ _ _ (by decide)]
    exact getKey_setKey_self _ _ _
  · exact getKey_setKey_self _ _ _
  · intro k hki hko
    show getKey (setKey (setKey e.meta "input" droppedValuePlaceholder)
      "output" droppedValuePlaceholder) k = getKey e.meta k
    rw [getKey_setKey_other _ _ _ _ hko, getKey_setKey_other _ _ _ _ hki]

/-- C2, witness: the amended truncation description evaluated on the
concrete event `c2CexEvent`, key `"other"` being untouched. -/
theorem claim_C2_witness :
    getKey (_truncate_span_event c2CexEvent).meta "other" = some PyVal.vnull ∧
    (_truncate_span_event c2CexEvent).collection_errors =
      [DROPPED_IO_COLLECTION_ERROR] := by
  have h := claim_C2_theorem c2CexEvent
  refine ⟨?_, h.2.2.2.2.2.2.2.2.2.2.2.2.2.2.2⟩
  have h2 := h.2.2.2.2.2.2.2.2.2.2.2.2.2.2.1 "other" (by decide) (by decide)
  rw [h2]
  rfl

/-- C4: the truncation transform is idempotent, and it leaves the event's
identifiers (span/trace/parent/session), timestamps (`start_ns`,
`duration`) and status fields (`status`, `status_message`) unchanged. -/
theorem claim_C4_theorem (e : LLMObsSpanEvent) :
    _truncate_span_event (_truncate_span_event e) = _truncate_span_event e ∧
    (_truncate_span_event e).span_id = e.span_id ∧
    (_truncate_span_event e).trace_id = e.trace_id ∧
    (_truncate_span_event e).parent_id = e.parent_id ∧
    (_truncate_span_event e).session_id = e.session_id ∧
    (_truncate_span_event e).start_ns = e.start_ns ∧
    (_truncate_span_event e).duration = e.duration ∧
    (_truncate_span_event e).status = e.status ∧
    (_truncate_span_event e).status_message = e.status_message :=
  ⟨truncate_idem e, rfl, rfl, rfl, rfl, rfl, rfl, rfl, rfl⟩


/-! ### Operation sequences over the buffers -/

/-- An operation on the base writer: a producer `enqueue` or a scheduled
`periodic` flush (with its HTTP outcome). -/
inductive WriterOp where
  | enq : PyVal → WriterOp
  | flush : HttpResult → WriterOp

/-- Run a sequence of base-writer operations. -/
def runBaseOps (st : BaseWriterState) : List WriterOp → BaseWriterState
  | [] => st
  | .enq e :: ops => runBaseOps (LLMObsEvalMetricWriter.enqueue st e).1 ops
  | .flush h :: ops => runBaseOps (LLMObsEvalMetricWriter.periodic st h).state ops

/-- An operation on the span encoder: a single-event `put` (as
`LLMObsSpanWriter.enqueue` performs it) or an `encode`. -/
inductive EncoderOp where
  | put1 : LLMObsSpanEvent → EncoderOp
  | enc : EncoderOp

/-- Run a sequence of encoder operations. -/
def runEncoderOps (st : EncoderState) : List EncoderOp → EncoderState
  | [] => st
  | .put1 e :: ops => runEncoderOps (LLMObsSpanEncoder.put st [e]).state ops
  | .enc :: ops => runEncoderOps (LLMObsSpanEncoder.encode st).state ops

/-- Run a sequence of single-event eval-metric enqueues, collecting logs. -/
def runEvalEnqueues (st : BaseWriterState) :
    List PyVal → BaseWriterState × List LogEvent
  | [] => (st, [])
  | e :: es =>
    let r := LLMObsEvalMetricWriter.enqueue st e
    let r2 := runEvalEnqueues r.1 es
    (r2.1, r.2 ++ r2.2)

/-- Run a sequence of single-event encoder puts, collecting logs. -/
def runEncPuts (st : EncoderState) :
    List LLMObsSpanEvent → EncoderState × List LogEvent
  | [] => (st, [])
  | e :: es =>
    let r := LLMObsSpanEncoder.put st [e]
    let r2 := runEncPuts r.state es
    (r2.1, r.logs ++ r2.2)

/-- Recognize the buffer-full drop warning. -/
def isDropWarn : LogEvent → Bool
  | .warnBufferFull _ _ => true
  | _ => false

/-! ### Buffer-capacity lemmas -/

theorem base_enqueue_length_le (st : BaseWriterState) (e : PyVal)
    (h : st.buffer.length ≤ BUFFER_LIMIT) :
    (LLMObsEvalMetricWriter.enqueue st e).1.buffer.length ≤ BUFFER_LIMIT := by
  unfold LLMObsEvalMetricWriter.enqueue BaseLLMObsWriter._enqueue
  by_cases hc : BUFFER_LIMIT ≤ st.buffer.length
  · simpa [hc] using h
  · simp only [hc, if_false]
    simp only [List.length_append, List.length_singleton]
    omega

theorem base_periodic_length_le (st : BaseWriterState) (h : HttpResult) :
    (LLMObsEvalMetricWriter.periodic st h).state.buffer.length ≤ BUFFER_LIMIT := by
  unfold LLMObsEvalMetricWriter.periodic BaseLLMObsWriter.periodic
  by_cases he : st.buffer.isEmpty
  · simp only [he, if_true]
    have : st.buffer = [] := List.isEmpty_iff.mp he
    simp [this, BUFFER_LIMIT]
  · simp only [he, if_false]
    rcases hd : dumpsVal (LLMObsEvalMetricWriter._data st.buffer) with u | s
    · simp [BUFFER_LIMIT]
    · rcases h with status | _
      · by_cases hs : 300 ≤ status <;> simp [hs, BUFFER_LIMIT]
      · simp [BUFFER_LIMIT]

theorem runBaseOps_length_le (ops : List WriterOp) (st : BaseWriterState)
    (h : st.buffer.length ≤ BUFFER_LIMIT) :
    (runBaseOps st ops).buffer.length ≤ BUFFER_LIMIT := by
  induction ops generalizing st with
  | nil => simpa [runBaseOps] using h
  | cons op ops ih =>
    cases op with
    | enq e => exact ih _ (base_enqueue_length_le st e h)
    | flush hr => exact ih _ (base_periodic_length_le st hr)

theorem enc_put_length_le (st : EncoderState) (e : LLMObsSpanEvent)
    (h : st.buffer.length ≤ BUFFER_LIMIT) :
    (LLMObsSpanEncoder.put st [e]).state.buffer.length ≤ BUFFER_LIMIT := by
  unfold LLMObsSpanEncoder.put
  by_cases hc : BUFFER_LIMIT ≤ st.buffer.length
  · simpa [hc] using h
  · simp only [hc, if_false]
    rcases hd : dumpsVal (.vlist ([e].map LLMObsSpanEvent.toPy)) with u | s <;>
      · simp only [List.length_append, List.length_singleton]
        omega

theorem enc_encode_length_le (st : EncoderState)
    (h : st.buffer.length ≤ BUFFER_LIMIT) :
    (LLMObsSpanEncoder.encode st).state.buffer.length ≤ BUFFER_LIMIT := by
  unfold LLMObsSpanEncoder.encode
  by_cases he : st.buffer.isEmpty
  · simpa [he] using h
  · simp only [he, if_false]
    rcases hd : dumpsVal (LLMObsSpanEncoder.spansEnvelope st.buffer) with u | s <;>
      simp [LLMObsSpanEncoder._init_buffer, BUFFER_LIMIT]

theorem runEncoderOps_length_le (ops : List EncoderOp) (st : EncoderState)
    (h : st.buffer.length ≤ BUFFER_LIMIT) :
    (runEncoderOps st ops).buffer.length ≤ BUFFER_LIMIT := by
  induction ops generalizing st with
  | nil => simpa [runEncoderOps] using h
  | cons op ops ih =>
    cases op with
    | put1 e => exact ih _ (enc_put_length_le st e h)
    | enc => exact ih _ (enc_encode_length_le st h)


/-- C5: for both the base writer's buffer and the span encoder's buffer,
the length never exceeds the capacity 1000 after any sequence of
enqueue/put and detach operations starting from the empty buffer; and once
at capacity, a further enqueue/put leaves the state unchanged and reports
the drop with exactly the buffer-full warning. -/
theorem claim_C5_theorem :
    (∀ ops : List WriterOp, (runBaseOps ⟨[]⟩ ops).buffer.length ≤ BUFFER_LIMIT) ∧
    (∀ (st : BaseWriterState) (e : PyVal), BUFFER_LIMIT ≤ st.buffer.length →
      LLMObsEvalMetricWriter.enqueue st e =
        (st, [.warnBufferFull "BaseLLMObsWriter" BUFFER_LIMIT])) ∧
    (∀ ops : List EncoderOp,
      (runEncoderOps LLMObsSpanEncoder._init_buffer ops).buffer.length ≤ BUFFER_LIMIT) ∧
    (∀ (st : EncoderState) (events : List LLMObsSpanEvent),
      BUFFER_LIMIT ≤ st.buffer.length →
      LLMObsSpanEncoder.put st events =
        ⟨st, [.warnBufferFull "LLMObsSpanEncoder" BUFFER_LIMIT], false⟩) := by
  refine ⟨fun ops => runBaseOps_length_le ops _ (by simp), ?_, 
    fun ops => runEncoderOps_length_le ops _ (by simp [LLMObsSpanEncoder._init_buffer]), ?_⟩
  · intro st e h
    unfold LLMObsEvalMetricWriter.enqueue BaseLLMObsWriter._enqueue
    simp [h]
  · intro st events h
    unfold LLMObsSpanEncoder.put
    simp [h]

/-- A base-writer buffer filled to capacity with `null` events. -/
def fullBaseState : BaseWriterState := ⟨List.replicate BUFFER_LIMIT PyVal.vnull⟩

/-- An encoder buffer filled to capacity with sample events. -/
def fullEncoderState : EncoderState :=
  ⟨List.replicate BUFFER_LIMIT sampleEvent, 0⟩

/-- C5, witness: a full base-writer buffer drops a further event with the
warning, and a full encoder buffer drops a further `put` with the warning. -/
theorem claim_C5_witness :
    LLMObsEvalMetricWriter.enqueue fullBaseState PyVal.vnull =
      (fullBaseState, [.warnBufferFull "BaseLLMObsWriter" BUFFER_LIMIT]) ∧
    LLMObsSpanEncoder.put fullEncoderState [sampleEvent] =
      ⟨fullEncoderState, [.warnBufferFull "LLMObsSpanEncoder" BUFFER_LIMIT], false⟩ :=
  ⟨claim_C5_theorem.2.1 fullBaseState PyVal.vnull
      (by simp [fullBaseState]),
    claim_C5_theorem.2.2.2 fullEncoderState [sampleEvent]
      (by simp [fullEncoderState])⟩


/-! ### Exact contents after a sequence of enqueues -/

theorem eval_enqueue_full (st : BaseWriterState) (e : PyVal)
    (h : BUFFER_LIMIT ≤ st.buffer.length) :
    LLMObsEvalMetricWriter.enqueue st e =
      (st, [.warnBufferFull "BaseLLMObsWriter" BUFFER_LIMIT]) := by
  unfold LLMObsEvalMetricWriter.enqueue BaseLLMObsWriter._enqueue
  simp [h]

theorem eval_enqueue_not_full (st : BaseWriterState) (e : PyVal)
    (h : ¬ BUFFER_LIMIT ≤ st.buffer.length) :
    LLMObsEvalMetricWriter.enqueue st e = (⟨st.buffer ++ [e]⟩, []) := by
  unfold LLMObsEvalMetricWriter.enqueue BaseLLMObsWriter._enqueue
  simp [h]

theorem runEvalEnqueues_spec (es : List PyVal) (st : BaseWriterState)
    (h : st.buffer.length ≤ BUFFER_LIMIT) :
    (runEvalEnqueues st es).1.buffer =
      st.buffer ++ es.take (BUFFER_LIMIT - st.buffer.length) ∧
    (runEvalEnqueues st es).2.countP isDropWarn =
      es.length - (BUFFER_LIMIT - st.buffer.length) := by
  induction es generalizing st with
  | nil => simp [runEvalEnqueues]
  | cons e es ih =>
    by_cases hc : BUFFER_LIMIT ≤ st.buffer.length
    · have hL : st.buffer.length = BUFFER_LIMIT := le_antisymm h hc
      obtain ⟨ih1, ih2⟩ := ih st h
      refine ⟨?_, ?_⟩
      · simp only [runEvalEnqueues, eval_enqueue_full st e hc]
        rw [ih1, hL]
        simp
      · simp only [runEvalEnqueues, eval_enqueue_full st e hc, List.countP_append]
        rw [ih2, hL]
        simp [isDropWarn, List.countP_cons]
        omega
    · have hlt : st.buffer.length < BUFFER_LIMIT := lt_of_not_ge hc
      have h1 : (⟨st.buffer ++ [e]⟩ : BaseWriterState).buffer.length ≤ BUFFER_LIMIT := by
        simp only [List.length_append, List.length_singleton]
        omega
      obtain ⟨ih1, ih2⟩ := ih ⟨st.buffer ++ [e]⟩ h1
      obtain ⟨n, hn1, hn2⟩ : ∃ n, BUFFER_LIMIT - st.buffer.length = n + 1 ∧
          BUFFER_LIMIT - (st.buffer.length + 1) = n := by
        refine ⟨BUFFER_LIMIT - (st.buffer.length + 1), by omega, rfl⟩
      refine ⟨?_, ?_⟩
      · simp only [runEvalEnqueues, eval_enqueue_not_full st e hc]
        rw [ih1]
        simp only [List.length_append, List.length_singleton, hn2, hn1]
        simp [List.take_succ_cons]
      · simp only [runEvalEnqueues, eval_enqueue_not_full st e hc, List.countP_append]
        rw [ih2]
        simp only [List.length_append, List.length_singleton, hn2, hn1]
        simp [List.countP_nil]

theorem enc_put_full (st : EncoderState) (events : List LLMObsSpanEvent)
    (h : BUFFER_LIMIT ≤ st.buffer.length) :
    LLMObsSpanEncoder.put st events =
      ⟨st, [.warnBufferFull "LLMObsSpanEncoder" BUFFER_LIMIT], false⟩ := by
  unfold LLMObsSpanEncoder.put
  simp [h]

theorem enc_put_not_full (st : EncoderState) (e : LLMObsSpanEvent)
    (h : ¬ BUFFER_LIMIT ≤ st.buffer.length) :
    (LLMObsSpanEncoder.put st [e]).state.buffer = st.buffer ++ [e] ∧
    (LLMObsSpanEncoder.put st [e]).logs = [] := by
  unfold LLMObsSpanEncoder.put
  rcases hd : dumpsVal (.vlist ([e].map LLMObsSpanEvent.toPy)) with u | s <;> simp [h, hd]

theorem runEncPuts_spec (es : List LLMObsSpanEvent) (st : EncoderState)
    (h : st.buffer.length ≤ BUFFER_LIMIT) :
    (runEncPuts st es).1.buffer =
      st.buffer ++ es.take (BUFFER_LIMIT - st.buffer.length) ∧
    (runEncPuts st es).2.countP isDropWarn =
      es.length - (BUFFER_LIMIT - st.buffer.length) := by
  induction es generalizing st with
  | nil => simp [runEncPuts]
  | cons e es ih =>
    by_cases hc : BUFFER_LIMIT ≤ st.buffer.length
    · have hL : st.buffer.length = BUFFER_LIMIT := le_antisymm h hc
      have hput := enc_put_full st [e] hc
      obtain ⟨ih1, ih2⟩ := ih st h
      refine ⟨?_, ?_⟩
      · simp only [runEncPuts, hput]
        rw [ih1, hL]
        simp
      · simp only [runEncPuts, hput, List.countP_append]
        rw [ih2, hL]
        simp [isDropWarn, List.countP_cons]
        omega
    · have hput := enc_put_not_full st e hc
      have h1 : (LLMObsSpanEncoder.put st [e]).state.buffer.length ≤ BUFFER_LIMIT := by
        rw [hput.1]
        simp only [List.length_append, List.length_singleton]
        omega
      obtain ⟨ih1, ih2⟩ := ih (LLMObsSpanEncoder.put st [e]).state h1
      obtain ⟨n, hn1, hn2⟩ : ∃ n, BUFFER_LIMIT - st.buffer.length = n + 1 ∧
          BUFFER_LIMIT - (st.buffer.length + 1) = n := by
        refine ⟨BUFFER_LIMIT - (st.buffer.length + 1), by omega, rfl⟩
      refine ⟨?_, ?_⟩
      · simp only [runEncPuts]
        rw [ih1, hput.1]
        simp only [List.length_append, List.length_singleton, hn2, hn1]
        simp [List.take_succ_cons]
      · simp only [runEncPuts, List.countP_append]
        rw [ih2, hput.1, hput.2]
        simp only [List.length_append, List.length_singleton, hn2, hn1]
        simp [List.countP_nil]

theorem periodic_detach (st : BaseWriterState) (h : HttpResult) :
    (LLMObsEvalMetricWriter.periodic st h).detached = st.buffer ∧
    (LLMObsEvalMetricWriter.periodic st h).state.buffer = [] := by
  unfold LLMObsEvalMetricWriter.periodic BaseLLMObsWriter.periodic
  by_cases he : st.buffer.isEmpty
  · have : st.buffer = [] := List.isEmpty_iff.mp he
    simp [he, this]
  · simp only [he, if_false]
    rcases hd : dumpsVal (LLMObsEvalMetricWriter._data st.buffer) with u | s
    · simp
    · rcases h with status | _
      · by_cases hs : 300 ≤ status <;> simp [hs]
      · simp

theorem encode_buffer_empty (st : EncoderState) :
    (LLMObsSpanEncoder.encode st).state.buffer = [] := by
  unfold LLMObsSpanEncoder.encode
  by_cases he : st.buffer.isEmpty
  · simpa [he] using List.isEmpty_iff.mp he
  · simp only [he, if_false]
    rcases hd : dumpsVal (LLMObsSpanEncoder.spansEnvelope st.buffer) with u | s <;>
      simp [LLMObsSpanEncoder._init_buffer]

theorem encode_payload (st : EncoderState) (h : st.buffer ≠ []) :
    (LLMObsSpanEncoder.encode st).payload =
      (dumpsVal (LLMObsSpanEncoder.spansEnvelope st.buffer)).toOption := by
  unfold LLMObsSpanEncoder.encode
  have he : st.buffer.isEmpty = false := by
    simpa [List.isEmpty_iff] using h
  simp only [he, Bool.false_eq_true, if_false]
  rcases hd : dumpsVal (LLMObsSpanEncoder.spansEnvelope st.buffer) with u | s <;>
    simp [hd, Except.toOption]


/-- C6: from an empty buffer, N single-event enqueues followed by a detach
(the periodic flush's swap, resp. `encode`) yield exactly the first
`min N 1000` events in insertion order (all of them when N ≤ 1000) and
leave the buffer empty, and each of the `N - 1000` excess calls is
reported as a drop warning; shown for both the base writer and the span
encoder. -/
theorem claim_C6_theorem (evs : List PyVal) (http : HttpResult)
    (ses : List LLMObsSpanEvent) :
    (runEvalEnqueues ⟨[]⟩ evs).1.buffer = evs.take BUFFER_LIMIT ∧
    (runEvalEnqueues ⟨[]⟩ evs).2.countP isDropWarn = evs.length - BUFFER_LIMIT ∧
    (LLMObsEvalMetricWriter.periodic (runEvalEnqueues ⟨[]⟩ evs).1 http).detached =
      evs.take BUFFER_LIMIT ∧
    (LLMObsEvalMetricWriter.periodic (runEvalEnqueues ⟨[]⟩ evs).1 http).state.buffer = [] ∧
    (runEncPuts LLMObsSpanEncoder._init_buffer ses).1.buffer = ses.take BUFFER_LIMIT ∧
    (runEncPuts LLMObsSpanEncoder._init_buffer ses).2.countP isDropWarn =
      ses.length - BUFFER_LIMIT ∧
    (LLMObsSpanEncoder.encode
      (runEncPuts LLMObsSpanEncoder._init_buffer ses).1).state.buffer = [] ∧
    (ses ≠ [] →
      (LLMObsSpanEncoder.encode (runEncPuts LLMObsSpanEncoder._init_buffer ses).1).payload =
        (dumpsVal (LLMObsSpanEncoder.spansEnvelope (ses.take BUFFER_LIMIT))).toOption) := by
  obtain ⟨hb1, hb2⟩ := runEvalEnqueues_spec evs ⟨[]⟩ (by simp)
  obtain ⟨he1, he2⟩ := runEncPuts_spec ses LLMObsSpanEncoder._init_buffer
    (by simp [LLMObsSpanEncoder._init_buffer])
  simp only [LLMObsSpanEncoder._init_buffer] at he1 he2 ⊢
  simp only [List.length_nil, Nat.sub_zero, List.nil_append] at hb1 hb2 he1 he2
  refine ⟨hb1, hb2, ?_, (periodic_detach _ http).2, he1, he2, encode_buffer_empty _, ?_⟩
  · rw [(periodic_detach _ http).1, hb1]
  · intro hne
    rw [encode_payload _ (by rw [he1]; simpa [BUFFER_LIMIT] using hne), he1]

/-- C6, witness: two eval events are both yielded in order by the next
flush, and a single span event put into the encoder is yielded by
`encode` as the serialized one-element envelope. -/
theorem claim_C6_witness :
    (runEvalEnqueues ⟨[]⟩ [PyVal.vnull, PyVal.vbool true]).1.buffer =
      [PyVal.vnull, PyVal.vbool true] ∧
    (LLMObsEvalMetricWriter.periodic
      (runEvalEnqueues ⟨[]⟩ [PyVal.vnull, PyVal.vbool true]).1
      (HttpResult.response 200)).detached = [PyVal.vnull, PyVal.vbool true] ∧
    (LLMObsSpanEncoder.encode
      (runEncPuts LLMObsSpanEncoder._init_buffer [sampleEvent]).1).payload =
      (dumpsVal (LLMObsSpanEncoder.spansEnvelope [sampleEvent])).toOption := by
  have h := claim_C6_theorem [PyVal.vnull, PyVal.vbool true]
    (HttpResult.response 200) [sampleEvent]
  refine ⟨?_, ?_, ?_⟩
  · rw [h.1, List.take_of_length_le (by norm_num [BUFFER_LIMIT])]
  · rw [h.2.2.1, List.take_of_length_le (by norm_num [BUFFER_LIMIT])]
  · rw [h.2.2.2.2.2.2.2 (List.cons_ne_nil _ _),
      List.take_of_length_le (by norm_num [BUFFER_LIMIT])]


/-- C10: the evaluation-metric writer's `enqueue` applies no size policy:
every event, regardless of its serialized size (and even when it is not
JSON-serializable at all), is appended to the buffer completely unmodified
when there is room (and dropped with the capacity warning otherwise) —
no truncation at the per-event limit and no forced flush at the payload
limit ever happens on this path. -/
theorem claim_C10_theorem (st : BaseWriterState) (e : PyVal) :
    (st.buffer.length < BUFFER_LIMIT →
      LLMObsEvalMetricWriter.enqueue st e = (⟨st.buffer ++ [e]⟩, [])) ∧
    (BUFFER_LIMIT ≤ st.buffer.length →
      LLMObsEvalMetricWriter.enqueue st e =
        (st, [.warnBufferFull "BaseLLMObsWriter" BUFFER_LIMIT])) :=
  ⟨fun h => eval_enqueue_not_full st e (not_le_of_lt h),
    fun h => eval_enqueue_full st e h⟩

/-- C10, witness: even a non-serializable evaluation-metric event (on
which `json.dumps` would raise, so which in particular has no size below
any limit) is buffered unmodified. -/
theorem claim_C10_witness :
    LLMObsEvalMetricWriter.enqueue ⟨[]⟩ (PyVal.vobj "obj") =
      (⟨[PyVal.vobj "obj"]⟩, []) :=
  (claim_C10_theorem ⟨[]⟩ (PyVal.vobj "obj")).1 (by simp [BUFFER_LIMIT])


/-- C9: every failure during a flush cycle is absorbed (these functions
are total in the embedding: every exception-throwing Python operation in
them is guarded) and the detached batch is discarded, never requeued.
For the base writer's `periodic`: the post-flush buffer is always empty
(so it contains only events enqueued after the detach); a serialization
failure logs the encode error and sends nothing; a response with status
≥ 300 logs the send error; a transport exception logs the exception
error.  For the span encoder's `encode`: the state is re-initialized even
when serializing the detached batch fails, in which case it logs the
encode error and returns no payload. -/
theorem claim_C9_theorem (st : BaseWriterState) (http : HttpResult)
    (est : EncoderState) (hb : st.buffer ≠ []) (he : est.buffer ≠ []) :
    (LLMObsEvalMetricWriter.periodic st http).state.buffer = [] ∧
    (dumpsVal (LLMObsEvalMetricWriter._data st.buffer) = .error () →
      (LLMObsEvalMetricWriter.periodic st http).sent = none ∧
      (LLMObsEvalMetricWriter.periodic st http).logs =
        [.errorEncodeFailed st.buffer.length "evaluation_metric"]) ∧
    (∀ s status, dumpsVal (LLMObsEvalMetricWriter._data st.buffer) = .ok s →
      http = .response status → 300 ≤ status →
      (LLMObsEvalMetricWriter.periodic st http).sent = some s ∧
      (LLMObsEvalMetricWriter.periodic st http).logs =
        [.errorSendFailedStatus st.buffer.length "evaluation_metric" status]) ∧
    (∀ s, dumpsVal (LLMObsEvalMetricWriter._data st.buffer) = .ok s →
      http = .exn →
      (LLMObsEvalMetricWriter.periodic st http).sent = some s ∧
      (LLMObsEvalMetricWriter.periodic st http).logs =
        [.errorSendFailedExn st.buffer.length "evaluation_metric"]) ∧
    (LLMObsSpanEncoder.encode est).state = LLMObsSpanEncoder._init_buffer ∧
    (dumpsVal (LLMObsSpanEncoder.spansEnvelope est.buffer) = .error () →
      (LLMObsSpanEncoder.encode est).payload = none ∧
      (LLMObsSpanEncoder.encode est).logs =
        [.errorEncodeSpansFailed est.buffer.length]) := by
  have hbe : st.buffer.isEmpty = false := by simpa [List.isEmpty_iff] using hb
  have hee : est.buffer.isEmpty = false := by simpa [List.isEmpty_iff] using he
  unfold LLMObsEvalMetricWriter.periodic BaseLLMObsWriter.periodic
    LLMObsSpanEncoder.encode
  simp only [hbe, hee, Bool.false_eq_true, if_false]
  rcases hd : dumpsVal (LLMObsEvalMetricWriter._data st.buffer) with u | s <;>
    rcases hd2 : dumpsVal (LLMObsSpanEncoder.spansEnvelope est.buffer) with u2 | s2
  · rcases http with status | _
    · by_cases hs : 300 ≤ status <;>
        simp [hd, hd2, hs] <;> omega
    · simp [hd, hd2]
  · rcases http with status | _
    · by_cases hs : 300 ≤ status <;>
        simp [hd, hd2, hs] <;> omega
    · simp [hd, hd2]
  · rcases http with status | _
    · by_cases hs : 300 ≤ status <;>
        simp [hd, hd2, hs] <;> omega
    · simp [hd, hd2]
  · rcases http with status | _
    · by_cases hs : 300 ≤ status <;>
        simp [hd, hd2, hs] <;> omega
    · simp [hd, hd2]

/-- An eval-metric buffer whose only event is not JSON-serializable. -/
def badEvalState : BaseWriterState := ⟨[PyVal.vobj "obj"]⟩

/-- An eval-metric buffer with one serializable event. -/
def goodEvalState : BaseWriterState := ⟨[PyVal.vnull]⟩

/-- A span event carrying a non-serializable metadata value. -/
def opaqueSpanEvent : LLMObsSpanEvent :=
  { sampleEvent with meta := [("input", .vobj "obj")] }

/-- A span-encoder buffer whose only event is not JSON-serializable. -/
def badEncoderState : EncoderState := ⟨[opaqueSpanEvent], 0⟩

/-- C9, witness: a serialization failure drops the batch with the encode
error and sends nothing; an HTTP 500 drops the batch with the send error;
a non-serializable span batch is discarded by `encode` with the state
re-initialized. -/
theorem claim_C9_witness :
    ((LLMObsEvalMetricWriter.periodic badEvalState HttpResult.exn).state.buffer = [] ∧
      (LLMObsEvalMetricWriter.periodic badEvalState HttpResult.exn).sent = none ∧
      (LLMObsEvalMetricWriter.periodic badEvalState HttpResult.exn).logs =
        [.errorEncodeFailed 1 "evaluation_metric"]) ∧
    ((LLMObsEvalMetricWriter.periodic goodEvalState (HttpResult.response 500)).state.buffer = [] ∧
      (LLMObsEvalMetricWriter.periodic goodEvalState (HttpResult.response 500)).logs =
        [.errorSendFailedStatus 1 "evaluation_metric" 500]) ∧
    ((LLMObsSpanEncoder.encode badEncoderState).state = LLMObsSpanEncoder._init_buffer ∧
      (LLMObsSpanEncoder.encode badEncoderState).payload = none ∧
      (LLMObsSpanEncoder.encode badEncoderState).logs = [.errorEncodeSpansFailed 1]) := by
  have h1 := claim_C9_theorem badEvalState HttpResult.exn badEncoderState
    (by simp [badEvalState]) (by simp [badEncoderState])
  have h2 := claim_C9_theorem goodEvalState (HttpResult.response 500) badEncoderState
    (by simp [goodEvalState]) (by simp [badEncoderState])
  have hbad : dumpsVal (LLMObsEvalMetricWriter._data badEvalState.buffer) = .error () := rfl
  have hgood : dumpsVal (LLMObsEvalMetricWriter._data goodEvalState.buffer) =
      .ok "\x7b\"data\": \x7b\"type\": \"evaluation_metric\", \"attributes\": \x7b\"metrics\": [null]\x7d\x7d\x7d" := rfl
  have henc : dumpsVal (LLMObsSpanEncoder.spansEnvelope badEncoderState.buffer) =
      .error () := rfl
  obtain ⟨hq1, hq2, _, _, hq5, hq6⟩ := h1
  obtain ⟨hw1, _, hw3, _, _, _⟩ := h2
  refine ⟨⟨hq1, (hq2 hbad).1, by simpa [badEvalState] using (hq2 hbad).2⟩,
    ⟨hw1, by simpa [goodEvalState] using (hw3 _ 500 hgood rfl (by norm_num)).2⟩,
    hq5, (hq6 henc).1, by simpa [badEncoderState] using (hq6 henc).2⟩


/-! ### The encoder `buffer_size` accounting -/

/-- The serialized length of a single span event (0 when `json.dumps`
would raise; only serializable events reach the buffer via the span
writer). -/
def serializedLen (e : LLMObsSpanEvent) : Nat :=
  match dumpsSpanEvent e with
  | .ok s => s.length
  | .error _ => 0

theorem dumps_singleton (e : LLMObsSpanEvent) (s : String)
    (h : dumpsSpanEvent e = .ok s) :
    dumpsVal (.vlist ([e].map LLMObsSpanEvent.toPy)) = .ok ("[" ++ s ++ "]") := by
  unfold dumpsSpanEvent at h
  have h1 : dumpsItems [e.toPy] = .ok [s] := by
    simp only [dumpsItems, h]
  have h2 : dumpsVal (PyVal.vlist [e.toPy]) =
      .ok ("[" ++ joinSep ", " [s] ++ "]") := by
    simp only [dumpsVal, h1]
  simp only [List.map_cons, List.map_nil, h2, joinSep]

theorem bracket_length (s : String) : ("[" ++ s ++ "]").length = s.length + 2 := by
  simp only [String.length_append,
    show ("[" : String).length = 1 from rfl, show ("]" : String).length = 1 from rfl]
  omega

/-- Encoder states reachable through the pipeline: from `_init_buffer` by
single-event `put`s of serializable events (the only `put`s the span
writer issues, after its own `json.dumps(event)` succeeded) and by
`encode`s. -/
inductive EncReach : EncoderState → Prop where
  | init : EncReach LLMObsSpanEncoder._init_buffer
  | put (st : EncoderState) (e : LLMObsSpanEvent) (s : String)
      (h : EncReach st) (hs : dumpsSpanEvent e = .ok s) :
      EncReach (LLMObsSpanEncoder.put st [e]).state
  | enc (st : EncoderState) (h : EncReach st) :
      EncReach (LLMObsSpanEncoder.encode st).state

/-- C7 (amended): at every reachable encoder state, `buffer_size` is the
sum over the buffered events of `len(json.dumps([event]))`, i.e. each
event's serialized length plus the 2 bracket characters of the
one-element JSON list it was put as (not the bare sum of the events'
serialized lengths); and a detach (`encode`, like `_init_buffer`) always
leaves `buffer_size = 0` and the buffer empty. -/
theorem claim_C7_theorem (st : EncoderState) (h : EncReach st) :
    st.buffer_size = (st.buffer.map (fun ev => serializedLen ev + 2)).sum ∧
    (LLMObsSpanEncoder.encode st).state.buffer_size = 0 ∧
    (LLMObsSpanEncoder.encode st).state.buffer = [] := by
  have main : st.buffer_size = (st.buffer.map (fun ev => serializedLen ev + 2)).sum := by
    induction h with
    | init => simp [LLMObsSpanEncoder._init_buffer]
    | put st e s h hs ih =>
      by_cases hc : BUFFER_LIMIT ≤ st.buffer.length
      · rw [enc_put_full st [e] hc]
        exact ih
      · have hsl : serializedLen e = s.length := by
          unfold serializedLen
          rw [hs]
        unfold LLMObsSpanEncoder.put
        simp only [hc, if_false, dumps_singleton e s hs]
        rw [ih, bracket_length]
        simp only [List.map_append, List.sum_append, List.map_cons, List.map_nil,
          List.sum_cons, List.sum_nil, hsl]
        omega
    | enc st h ih =>
      unfold LLMObsSpanEncoder.encode
      by_cases he : st.buffer.isEmpty
      · have hb : st.buffer = [] := List.isEmpty_iff.mp he
        simp only [he, if_true]
        rw [ih, hb]
      · simp only [he, Bool.false_eq_true, if_false]
        rcases hd : dumpsVal (LLMObsSpanEncoder.spansEnvelope st.buffer) with u | s <;>
          simp [LLMObsSpanEncoder._init_buffer]
  refine ⟨main, ?_, encode_buffer_empty st⟩
  unfold LLMObsSpanEncoder.encode
  by_cases he : st.buffer.isEmpty
  · have hb : st.buffer = [] := List.isEmpty_iff.mp he
    simp only [he, if_true]
    rw [main, hb]
    rfl
  · simp only [he, Bool.false_eq_true, if_false]
    rcases hd : dumpsVal (LLMObsSpanEncoder.spansEnvelope st.buffer) with u | s <;>
      simp [LLMObsSpanEncoder._init_buffer]

set_option maxRecDepth 4000 in
/-- C7, counterexample: after putting the 231-byte `sampleEvent` into a
fresh encoder (a reachable state), `buffer_size` is 233 — the serialized
length of the one-element JSON list including its brackets — while the
sum of the buffered events' serialized lengths is 231, so `buffer_size`
does not equal the sum of the serialized lengths of the buffered
events. -/
theorem claim_C7_counterexample :
    (LLMObsSpanEncoder.put LLMObsSpanEncoder._init_buffer [sampleEvent]).state.buffer_size = 233 ∧
    (((LLMObsSpanEncoder.put LLMObsSpanEncoder._init_buffer
        [sampleEvent]).state.buffer.map serializedLen).sum = 231) ∧
    (233 : Nat) ≠ 231 :=
  ⟨rfl, rfl, by decide⟩

set_option maxRecDepth 4000 in
/-- C7, witness: the amended accounting evaluated at the reachable state
holding exactly one `sampleEvent`. -/
theorem claim_C7_witness :
    (LLMObsSpanEncoder.put LLMObsSpanEncoder._init_buffer [sampleEvent]).state.buffer_size =
      (((LLMObsSpanEncoder.put LLMObsSpanEncoder._init_buffer
        [sampleEvent]).state.buffer.map (fun ev => serializedLen ev + 2)).sum) :=
  (claim_C7_theorem _ (EncReach.put LLMObsSpanEncoder._init_buffer sampleEvent _
    EncReach.init rfl)).1


/-! ### Serializability lemmas -/

theorem dumpsItems_vstr (l : List String) :
    dumpsItems (l.map .vstr) = .ok (l.map jstr) := by
  induction l with
  | nil => simp [dumpsItems]
  | cons x xs ih => simp only [List.map_cons, dumpsItems, dumpsVal, ih]

theorem dumpsPairs_cons_ok (k : String) (v : PyVal)
    (kvs : List (String × PyVal)) (r : List String)
    (h : dumpsPairs ((k, v) :: kvs) = .ok r) :
    ∃ s rest, dumpsVal v = .ok s ∧ dumpsPairs kvs = .ok rest ∧
      r = (jstr k ++ ": " ++ s) :: rest := by
  rcases hv : dumpsVal v with u | s
  · simp only [dumpsPairs, hv] at h
    simp at h
  · rcases hr : dumpsPairs kvs with u | rest
    · simp only [dumpsPairs, hv, hr] at h
      simp at h
    · simp only [dumpsPairs, hv, hr] at h
      exact ⟨s, rest, rfl, rfl, (Except.ok.inj h).symm⟩

theorem dumpsSpanEvent_inv (e : LLMObsSpanEvent) (s : String)
    (h : dumpsSpanEvent e = .ok s) :
    (∃ pm, dumpsPairs e.meta = .ok pm) ∧
    (∃ pq, dumpsPairs e.metrics = .ok pq) := by
  unfold dumpsSpanEvent LLMObsSpanEvent.toPy at h
  simp only [dumpsVal, dumpsPairs, dumpsItems_vstr] at h
  rcases hm : dumpsPairs e.meta with u | pm
  · rw [hm] at h
    simp at h
  · rw [hm] at h
    rcases hq : dumpsPairs e.metrics with u | pq
    · rw [hq] at h
      simp at h
    · exact ⟨⟨pm, rfl⟩, ⟨pq, rfl⟩⟩

theorem dumpsSpanEvent_build (e : LLMObsSpanEvent) (pm pq : List String)
    (hm : dumpsPairs e.meta = .ok pm) (hq : dumpsPairs e.metrics = .ok pq) :
    ∃ t, dumpsSpanEvent e = .ok t := by
  unfold dumpsSpanEvent LLMObsSpanEvent.toPy
  simp only [dumpsVal, dumpsPairs, dumpsItems_vstr, hm, hq]
  exact ⟨_, rfl⟩

theorem dumpsPairs_setKey_ok (m : List (String × PyVal)) (pm : List String)
    (k : String) (v : PyVal) (sv : String)
    (hm : dumpsPairs m = .ok pm) (hv : dumpsVal v = .ok sv) :
    ∃ q, dumpsPairs (setKey m k v) = .ok q := by
  induction m generalizing pm with
  | nil =>
    exact ⟨[jstr k ++ ": " ++ sv], by simp only [setKey, dumpsPairs, hv]⟩
  | cons p rest ih =>
    rcases p with ⟨pk, pv⟩
    obtain ⟨s0, rest0, hp, hrest, -⟩ := dumpsPairs_cons_ok pk pv rest pm hm
    by_cases hc : pk = k
    · refine ⟨(jstr k ++ ": " ++ sv) :: rest0, ?_⟩
      simp only [setKey, hc, beq_self_eq_true, if_true, dumpsPairs, hv, hrest]
    · obtain ⟨q0, hq0⟩ := ih rest0 hrest
      refine ⟨(jstr pk ++ ": " ++ s0) :: q0, ?_⟩
      simp only [setKey, beq_iff_eq, hc, if_false, dumpsPairs, hp, hq0]

theorem dumps_truncate_ok (e : LLMObsSpanEvent) (s : String)
    (h : dumpsSpanEvent e = .ok s) :
    ∃ t, dumpsSpanEvent (_truncate_span_event e) = .ok t := by
  obtain ⟨⟨pm, hm⟩, ⟨pq, hq⟩⟩ := dumpsSpanEvent_inv e s h
  obtain ⟨pm1, hm1⟩ := dumpsPairs_setKey_ok e.meta pm "input"
    droppedValuePlaceholder _ hm rfl
  obtain ⟨pm2, hm2⟩ := dumpsPairs_setKey_ok _ pm1 "output"
    droppedValuePlaceholder _ hm1 rfl
  exact dumpsSpanEvent_build (_truncate_span_event e) pm2 pq hm2 hq

/-! ### Span-writer `enqueue` evaluation -/

theorem put_ok_state (c1 : EncoderState) (e1 : LLMObsSpanEvent) (t : String)
    (hd1 : dumpsSpanEvent e1 = .ok t) (hcap : c1.buffer.length < BUFFER_LIMIT) :
    LLMObsSpanEncoder.put c1 [e1] =
      ⟨⟨c1.buffer ++ [e1], c1.buffer_size + (t.length + 2)⟩, [], false⟩ := by
  unfold LLMObsSpanEncoder.put
  simp only [not_le_of_lt hcap, if_false, dumps_singleton e1 t hd1, bracket_length]

theorem put_raised_false (c1 : EncoderState) (e1 : LLMObsSpanEvent) (t : String)
    (hd1 : dumpsSpanEvent e1 = .ok t) :
    (LLMObsSpanEncoder.put c1 [e1]).raised = false := by
  unfold LLMObsSpanEncoder.put
  by_cases hc : BUFFER_LIMIT ≤ c1.buffer.length
  · simp [hc]
  · simp only [hc, if_false, dumps_singleton e1 t hd1]

theorem write_single (c1 : EncoderState) (es : List LLMObsSpanEvent) :
    LLMObsSpanWriter.write [c1] es =
      ([(LLMObsSpanEncoder.put c1 es).state], (LLMObsSpanEncoder.put c1 es).logs,
        (LLMObsSpanEncoder.put c1 es).raised) := by
  unfold LLMObsSpanWriter.write
  by_cases hr : (LLMObsSpanEncoder.put c1 es).raised
  · simp [hr, LLMObsSpanWriter.write]
  · simp [hr, LLMObsSpanWriter.write]

theorem flush_client_buffer (c : EncoderState) :
    (LLMObsSpanWriter._flush_queue_with_client c).1.buffer = [] :=
  encode_buffer_empty c

theorem encode_nonempty_state (c : EncoderState) (hne : c.buffer ≠ []) :
    (LLMObsSpanEncoder.encode c).state = LLMObsSpanEncoder._init_buffer := by
  have he : c.buffer.isEmpty = false := by simpa [List.isEmpty_iff] using hne
  unfold LLMObsSpanEncoder.encode
  simp only [he, Bool.false_eq_true, if_false]
  rcases hd : dumpsVal (LLMObsSpanEncoder.spansEnvelope c.buffer) with u | s <;> simp

theorem spanEnqueue_eval (c : EncoderState) (e : LLMObsSpanEvent) (s : String)
    (hd : dumpsSpanEvent e = .ok s) :
    LLMObsSpanWriter.enqueue ⟨[c]⟩ e =
      ⟨⟨[(LLMObsSpanEncoder.put
            (if EVP_PAYLOAD_SIZE_LIMIT < c.buffer_size + s.length then
              (LLMObsSpanWriter._flush_queue_with_client c).1 else c)
            [if EVP_EVENT_SIZE_LIMIT ≤ s.length then _truncate_span_event e else e]).state]⟩,
        (if EVP_EVENT_SIZE_LIMIT ≤ s.length then
          [LogEvent.warnEventTooLarge s.length] else []) ++
        (if EVP_PAYLOAD_SIZE_LIMIT < c.buffer_size + s.length then
          LogEvent.debugFlushLimit :: (LLMObsSpanWriter._flush_queue_with_client c).2 else []) ++
        (LLMObsSpanEncoder.put
            (if EVP_PAYLOAD_SIZE_LIMIT < c.buffer_size + s.length then
              (LLMObsSpanWriter._flush_queue_with_client c).1 else c)
            [if EVP_EVENT_SIZE_LIMIT ≤ s.length then _truncate_span_event e else e]).logs,
        (LLMObsSpanEncoder.put
            (if EVP_PAYLOAD_SIZE_LIMIT < c.buffer_size + s.length then
              (LLMObsSpanWriter._flush_queue_with_client c).1 else c)
            [if EVP_EVENT_SIZE_LIMIT ≤ s.length then _truncate_span_event e else e]).raised⟩ := by
  unfold LLMObsSpanWriter.enqueue
  rw [hd]
  by_cases h1 : EVP_EVENT_SIZE_LIMIT ≤ s.length <;>
    by_cases h2 : EVP_PAYLOAD_SIZE_LIMIT < c.buffer_size + s.length <;>
      simp only [h1, h2, if_true, if_false, List.map_cons, List.map_nil,
        List.flatMap_cons, List.flatMap_nil, List.append_nil, List.nil_append,
        write_single] <;> rfl


/-- The possibly-truncated event is serializable whenever the original
event is. -/
theorem handed_event_ok (e : LLMObsSpanEvent) (s : String)
    (hd : dumpsSpanEvent e = .ok s) :
    ∃ t, dumpsSpanEvent
      (if EVP_EVENT_SIZE_LIMIT ≤ s.length then _truncate_span_event e else e) = .ok t := by
  by_cases h1 : EVP_EVENT_SIZE_LIMIT ≤ s.length
  · simpa [h1] using dumps_truncate_ok e s hd
  · exact ⟨s, by simpa [h1] using hd⟩

/-- C3: on a single-client span writer (as both construction modes build),
a serializable event at or above `EVP_EVENT_SIZE_LIMIT` is truncated
before being handed to the encoder, and an event below the limit is
buffered completely unaltered: the client's buffer after `enqueue` is its
previous content (empty if the mid-cycle flush fired) with exactly the
possibly-truncated event appended. -/
theorem claim_C3_theorem (c : EncoderState) (e : LLMObsSpanEvent) (s : String)
    (hd : dumpsSpanEvent e = .ok s) (hcap : c.buffer.length < BUFFER_LIMIT) :
    ((LLMObsSpanWriter.enqueue ⟨[c]⟩ e).state.clients.map EncoderState.buffer) =
      [(if EVP_PAYLOAD_SIZE_LIMIT < c.buffer_size + s.length then
          ([] : List LLMObsSpanEvent) else c.buffer) ++
        [if EVP_EVENT_SIZE_LIMIT ≤ s.length then _truncate_span_event e else e]] := by
  obtain ⟨t, ht⟩ := handed_event_ok e s hd
  rw [spanEnqueue_eval c e s hd]
  by_cases h2 : EVP_PAYLOAD_SIZE_LIMIT < c.buffer_size + s.length
  · simp only [h2, if_true]
    rw [put_ok_state _ _ t ht
      (by rw [flush_client_buffer]; norm_num [BUFFER_LIMIT])]
    simp [flush_client_buffer]
  · simp only [h2, if_false]
    rw [put_ok_state _ _ t ht hcap]
    simp

/-- The serialization of `sampleEvent` (231 characters). -/
def sampleDump : String :=
  "\x7b\"span_id\": \"1\", \"trace_id\": \"2\", \"parent_id\": \"3\", \"session_id\": \"4\", \"tags\": [], \"service\": \"s\", \"name\": \"n\", \"start_ns\": 0, \"duration\": 0, \"status\": \"ok\", \"status_message\": \"\", \"meta\": \x7b\x7d, \"metrics\": \x7b\x7d, \"collection_errors\": []\x7d"

set_option maxRecDepth 4000 in
theorem sampleDump_ok : dumpsSpanEvent sampleEvent = .ok sampleDump := rfl

/-- C3, witness: the small `sampleEvent` (231 bytes, below the limits) is
buffered completely unaltered by the span writer. -/
theorem claim_C3_witness :
    ((LLMObsSpanWriter.enqueue ⟨[LLMObsSpanEncoder._init_buffer]⟩
      sampleEvent).state.clients.map EncoderState.buffer) = [[sampleEvent]] := by
  have h := claim_C3_theorem LLMObsSpanEncoder._init_buffer sampleEvent
    sampleDump sampleDump_ok (by norm_num [LLMObsSpanEncoder._init_buffer, BUFFER_LIMIT])
  rw [h, if_neg (by decide), if_neg (by decide)]
  rfl

/-- C8 (amended): the eval-metric writer's `enqueue` never fails
observably for any event (it either appends the event or drops it with a
warning, and raises nothing), and the span writer's `enqueue` never
raises for any JSON-serializable event; but (see the counterexample) a
non-serializable span event makes the unguarded `json.dumps(event)` in
`LLMObsSpanWriter.enqueue` raise to the producer. -/
theorem claim_C8_theorem :
    (∀ (st : BaseWriterState) (e : PyVal),
      LLMObsEvalMetricWriter.enqueue st e = (⟨st.buffer ++ [e]⟩, []) ∨
      LLMObsEvalMetricWriter.enqueue st e =
        (st, [.warnBufferFull "BaseLLMObsWriter" BUFFER_LIMIT])) ∧
    (∀ (c : EncoderState) (e : LLMObsSpanEvent) (s : String),
      dumpsSpanEvent e = .ok s →
      (LLMObsSpanWriter.enqueue ⟨[c]⟩ e).raised = false) := by
  constructor
  · intro st e
    by_cases hc : BUFFER_LIMIT ≤ st.buffer.length
    · exact Or.inr (eval_enqueue_full st e hc)
    · exact Or.inl (eval_enqueue_not_full st e hc)
  · intro c e s hd
    obtain ⟨t, ht⟩ := handed_event_ok e s hd
    rw [spanEnqueue_eval c e s hd]
    exact put_raised_false _ _ t ht

/-- C8, counterexample: a span event with a non-serializable metadata
value makes `LLMObsSpanWriter.enqueue` itself raise `TypeError` (the
`json.dumps(event)` size computation is not guarded), so the failure is
not absorbed and does propagate to the producer. -/
theorem claim_C8_counterexample :
    (LLMObsSpanWriter.enqueue ⟨[LLMObsSpanEncoder._init_buffer]⟩
      opaqueSpanEvent).raised = true := rfl

/-- C8, witness: a serializable span event is enqueued without raising,
and an eval-metric enqueue reports only through its return. -/
theorem claim_C8_witness :
    (LLMObsEvalMetricWriter.enqueue ⟨[]⟩ PyVal.vnull = (⟨[PyVal.vnull]⟩, []) ∨
      LLMObsEvalMetricWriter.enqueue ⟨[]⟩ PyVal.vnull =
        (⟨[]⟩, [.warnBufferFull "BaseLLMObsWriter" BUFFER_LIMIT])) ∧
    (LLMObsSpanWriter.enqueue ⟨[LLMObsSpanEncoder._init_buffer]⟩
      sampleEvent).raised = false :=
  ⟨claim_C8_theorem.1 ⟨[]⟩ PyVal.vnull,
    claim_C8_theorem.2 LLMObsSpanEncoder._init_buffer sampleEvent
      sampleDump sampleDump_ok⟩

/-- C1 (amended): on a single-client span writer, if adding the event's
pre-truncation serialized size (the `event_size` the code computes before
any truncation, and never recomputes) to the client's `buffer_size`
exceeds `EVP_PAYLOAD_SIZE_LIMIT`, and the client's buffer is nonempty,
then the writer forces a flush of that client strictly before handing the
event to the encoder: the resulting client state is exactly a `put` of
the possibly-truncated event onto the freshly re-initialized encoder
(`buffer_size` counted from 0), nothing is raised, and the flush debug
message is logged. -/
theorem claim_C1_theorem (c : EncoderState) (e : LLMObsSpanEvent) (s : String)
    (hd : dumpsSpanEvent e = .ok s)
    (hflush : EVP_PAYLOAD_SIZE_LIMIT < c.buffer_size + s.length)
    (hne : c.buffer ≠ []) :
    (LLMObsSpanWriter.enqueue ⟨[c]⟩ e).state =
      ⟨[(LLMObsSpanEncoder.put LLMObsSpanEncoder._init_buffer
          [if EVP_EVENT_SIZE_LIMIT ≤ s.length then _truncate_span_event e else e]).state]⟩ ∧
    (LLMObsSpanWriter.enqueue ⟨[c]⟩ e).raised = false ∧
    LogEvent.debugFlushLimit ∈ (LLMObsSpanWriter.enqueue ⟨[c]⟩ e).logs := by
  obtain ⟨t, ht⟩ := handed_event_ok e s hd
  have hflstate : (LLMObsSpanWriter._flush_queue_with_client c).1 =
      LLMObsSpanEncoder._init_buffer := by
    unfold LLMObsSpanWriter._flush_queue_with_client
    exact encode_nonempty_state c hne
  rw [spanEnqueue_eval c e s hd]
  refine ⟨?_, ?_, ?_⟩
  · simp only [hflush, if_true, hflstate]
  · simp only [hflush, if_true, hflstate]
    exact put_raised_false _ _ t ht
  · simp [hflush]

/-- A client whose tracked `buffer_size` is already 6 MiB. -/
def nearFullClient : EncoderState := ⟨[sampleEvent], 6 * (1024 * 1024)⟩

/-- C1, witness: with `buffer_size` beyond the payload limit, enqueuing
the small `sampleEvent` flushes the client first and then buffers the
event on the re-initialized encoder. -/
theorem claim_C1_witness :
    (LLMObsSpanWriter.enqueue ⟨[nearFullClient]⟩ sampleEvent).state =
      ⟨[(LLMObsSpanEncoder.put LLMObsSpanEncoder._init_buffer
          [sampleEvent]).state]⟩ ∧
    (LLMObsSpanWriter.enqueue ⟨[nearFullClient]⟩ sampleEvent).raised = false ∧
    LogEvent.debugFlushLimit ∈ (LLMObsSpanWriter.enqueue ⟨[nearFullClient]⟩
      sampleEvent).logs := by
  have h := claim_C1_theorem nearFullClient sampleEvent sampleDump sampleDump_ok
    (by decide) (List.cons_ne_nil _ _)
  rw [if_neg (by decide)] at h
  exact h


/-! ### Large-event arithmetic for the payload-limit check -/

/-- A string of `n` letters. -/
def bigA (n : Nat) : String := String.mk (List.replicate n 'a')

theorem flatMap_escChar_replicate (n : Nat) :
    (List.replicate n 'a').flatMap escChar = List.replicate n 'a' := by
  induction n with
  | zero => rfl
  | succ n ih =>
    rw [List.replicate_succ, List.flatMap_cons, ih]
    rfl

theorem escStr_bigA (n : Nat) : escStr (bigA n) = bigA n := by
  unfold escStr bigA
  rw [show (String.mk (List.replicate n 'a')).data = List.replicate n 'a' from rfl,
    flatMap_escChar_replicate]

theorem bigA_length (n : Nat) : (bigA n).length = n := by
  rw [show (bigA n).length = (List.replicate n 'a').length from rfl,
    List.length_replicate]

/-- A span event whose `status_message` carries `m` bytes and whose other
fields are those of `sampleEvent`. -/
def fillerEvent (m : Nat) : LLMObsSpanEvent :=
  { sampleEvent with status_message := bigA m }

theorem dumps_filler_len (s : String) :
    (dumpsSpanEvent { sampleEvent with status_message := s }).map String.length =
      .ok (229 + (jstr s).length) := by
  unfold dumpsSpanEvent LLMObsSpanEvent.toPy sampleEvent
  simp only [dumpsVal, dumpsPairs, dumpsItems, List.map_nil, joinSep, Except.map]
  simp only [jstr, String.length_append,
    (by decide : (escStr "span_id").length = 7),
    (by decide : (escStr "trace_id").length = 8),
    (by decide : (escStr "parent_id").length = 9),
    (by decide : (escStr "session_id").length = 10),
    (by decide : (escStr "tags").length = 4),
    (by decide : (escStr "service").length = 7),
    (by decide : (escStr "name").length = 4),
    (by decide : (escStr "start_ns").length = 8),
    (by decide : (escStr "duration").length = 8),
    (by decide : (escStr "status").length = 6),
    (by decide : (escStr "status_message").length = 14),
    (by decide : (escStr "meta").length = 4),
    (by decide : (escStr "metrics").length = 7),
    (by decide : (escStr "collection_errors").length = 17),
    (by decide : (escStr "1").length = 1),
    (by decide : (escStr "2").length = 1),
    (by decide : (escStr "3").length = 1),
    (by decide : (escStr "4").length = 1),
    (by decide : (escStr "s").length = 1),
    (by decide : (escStr "n").length = 1),
    (by decide : (escStr "ok").length = 2),
    (by decide : (escStr "value").length = 5),
    (by decide : (escStr "input").length = 5),
    (by decide : (escStr "output").length = 6),
    (by decide : (escStr "dropped_io").length = 10),
    (by decide : (escStr DROPPED_VALUE_TEXT).length = 80),
    (by decide : (escStr DROPPED_IO_COLLECTION_ERROR).length = 10),
    (by decide : ("\"" : String).length = 1),
    (by decide : (", " : String).length = 2),
    (by decide : (": " : String).length = 2),
    (by decide : ("[" : String).length = 1),
    (by decide : ("]" : String).length = 1),
    (by decide : ("\x7b" : String).length = 1),
    (by decide : ("\x7d" : String).length = 1),
    (by decide : ("" : String).length = 0),
    (by decide : (toString (0 : Int)).length = 1)]
  simp only [Except.ok.injEq]
  omega

theorem dumps_truncFiller_len (s : String) :
    (dumpsSpanEvent (_truncate_span_event
      { sampleEvent with status_message := s })).map String.length =
      .ok (448 + (jstr s).length) := by
  unfold _truncate_span_event dumpsSpanEvent LLMObsSpanEvent.toPy sampleEvent
    setKey droppedValuePlaceholder
  simp only [dumpsVal, dumpsPairs, dumpsItems, List.map_nil, List.map_cons, joinSep,
    Except.map, List.any_nil, List.any_cons, Bool.or_false, if_false, if_true]
  simp only [jstr, String.length_append,
    (by decide : (escStr "span_id").length = 7),
    (by decide : (escStr "trace_id").length = 8),
    (by decide : (escStr "parent_id").length = 9),
    (by decide : (escStr "session_id").length = 10),
    (by decide : (escStr "tags").length = 4),
    (by decide : (escStr "service").length = 7),
    (by decide : (escStr "name").length = 4),
    (by decide : (escStr "start_ns").length = 8),
    (by decide : (escStr "duration").length = 8),
    (by decide : (escStr "status").length = 6),
    (by decide : (escStr "status_message").length = 14),
    (by decide : (escStr "meta").length = 4),
    (by decide : (escStr "metrics").length = 7),
    (by decide : (escStr "collection_errors").length = 17),
    (by decide : (escStr "1").length = 1),
    (by decide : (escStr "2").length = 1),
    (by decide : (escStr "3").length = 1),
    (by decide : (escStr "4").length = 1),
    (by decide : (escStr "s").length = 1),
    (by decide : (escStr "n").length = 1),
    (by decide : (escStr "ok").length = 2),
    (by decide : (escStr "value").length = 5),
    (by decide : (escStr "input").length = 5),
    (by decide : (escStr "output").length = 6),
    (by decide : (escStr "dropped_io").length = 10),
    (by decide : (escStr DROPPED_VALUE_TEXT).length = 80),
    (by decide : (escStr DROPPED_IO_COLLECTION_ERROR).length = 10),
    (by decide : ("\"" : String).length = 1),
    (by decide : (", " : String).length = 2),
    (by decide : (": " : String).length = 2),
    (by decide : ("[" : String).length = 1),
    (by decide : ("]" : String).length = 1),
    (by decide : ("\x7b" : String).length = 1),
    (by decide : ("\x7d" : String).length = 1),
    (by decide : ("" : String).length = 0),
    (by decide : (toString (0 : Int)).length = 1)]
  simp only [Except.ok.injEq]
  omega

theorem dumps_fillerEvent_ok (m : Nat) :
    ∃ t, dumpsSpanEvent (fillerEvent m) = .ok t ∧ t.length = 231 + m := by
  have h := dumps_filler_len (bigA m)
  rcases hd : dumpsSpanEvent (fillerEvent m) with u | t
  · rw [show dumpsSpanEvent { sampleEvent with status_message := bigA m } =
      dumpsSpanEvent (fillerEvent m) from rfl, hd] at h
    simp [Except.map] at h
  · rw [show dumpsSpanEvent { sampleEvent with status_message := bigA m } =
      dumpsSpanEvent (fillerEvent m) from rfl, hd] at h
    simp only [Except.map, Except.ok.injEq] at h
    refine ⟨t, rfl, ?_⟩
    rw [h]
    simp only [jstr, String.length_append, escStr_bigA, bigA_length,
      (by decide : ("\"" : String).length = 1)]
    omega

theorem dumps_truncFillerEvent_ok (m : Nat) :
    ∃ t, dumpsSpanEvent (_truncate_span_event (fillerEvent m)) = .ok t ∧
      t.length = 450 + m := by
  have h := dumps_truncFiller_len (bigA m)
  rcases hd : dumpsSpanEvent (_truncate_span_event (fillerEvent m)) with u | t
  · rw [show dumpsSpanEvent (_truncate_span_event
        { sampleEvent with status_message := bigA m }) =
      dumpsSpanEvent (_truncate_span_event (fillerEvent m)) from rfl, hd] at h
    simp [Except.map] at h
  · rw [show dumpsSpanEvent (_truncate_span_event
        { sampleEvent with status_message := bigA m }) =
      dumpsSpanEvent (_truncate_span_event (fillerEvent m)) from rfl, hd] at h
    simp only [Except.map, Except.ok.injEq] at h
    refine ⟨t, rfl, ?_⟩
    rw [h]
    simp only [jstr, String.length_append, escStr_bigA, bigA_length,
      (by decide : ("\"" : String).length = 1)]
    omega


attribute [irreducible] bigA

/-- One `enqueue` step on a single-client writer: event below the size
limit, payload limit not hit, room in the buffer. -/
theorem enqueue_no_flush_no_trunc (c : EncoderState) (e : LLMObsSpanEvent)
    (s : String) (hd : dumpsSpanEvent e = .ok s)
    (h1 : ¬ EVP_EVENT_SIZE_LIMIT ≤ s.length)
    (h2 : ¬ EVP_PAYLOAD_SIZE_LIMIT < c.buffer_size + s.length)
    (hcap : c.buffer.length < BUFFER_LIMIT) :
    LLMObsSpanWriter.enqueue ⟨[c]⟩ e =
      ⟨⟨[⟨c.buffer ++ [e], c.buffer_size + (s.length + 2)⟩]⟩, [], false⟩ := by
  rw [spanEnqueue_eval c e s hd]
  simp only [h1, h2, if_false]
  rw [put_ok_state c e s hd hcap]
  simp

/-- One `enqueue` step on a single-client writer: event at or above the
size limit (so truncated), payload limit not hit, room in the buffer. -/
theorem enqueue_no_flush_trunc (c : EncoderState) (e : LLMObsSpanEvent)
    (s t : String) (hd : dumpsSpanEvent e = .ok s)
    (ht : dumpsSpanEvent (_truncate_span_event e) = .ok t)
    (h1 : EVP_EVENT_SIZE_LIMIT ≤ s.length)
    (h2 : ¬ EVP_PAYLOAD_SIZE_LIMIT < c.buffer_size + s.length)
    (hcap : c.buffer.length < BUFFER_LIMIT) :
    LLMObsSpanWriter.enqueue ⟨[c]⟩ e =
      ⟨⟨[⟨c.buffer ++ [_truncate_span_event e], c.buffer_size + (t.length + 2)⟩]⟩,
        [.warnEventTooLarge s.length], false⟩ := by
  rw [spanEnqueue_eval c e s hd]
  simp only [h1, h2, if_true, if_false]
  rw [put_ok_state c (_truncate_span_event e) t ht hcap]
  simp

/-- The filler events of the C1 counterexample and the writer state
reached by enqueuing them from a fresh single-client writer. -/
def cexFillerA : LLMObsSpanEvent := fillerEvent 1048344

def cexFillerB : LLMObsSpanEvent := fillerEvent 1048109

def cexBig : LLMObsSpanEvent := fillerEvent 1048576

/-- The encoder state of the C1 counterexample: four below-limit filler
events buffered, `buffer_size` 4194073. -/
def cexMid : EncoderState :=
  ⟨[cexFillerA, cexFillerA, cexFillerA, cexFillerB], 4194073⟩

/-- C1, counterexample.  The first group of equations shows the state
`⟨[cexMid]⟩` (`buffer_size` 4194073) is reached from a fresh single-client
writer by four below-limit enqueues.  Enqueuing the 1048807-byte `cexBig`
there truncates it to 1049026 bytes; adding the truncated event's
serialized size to `buffer_size` exceeds `EVP_PAYLOAD_SIZE_LIMIT`
(4194073 + 1049026 > 5242880), so the claim as stated requires a forced
flush strictly before the event is handed to the encoder — but the code
compares against the pre-truncation size (4194073 + 1048807 = 5242880,
not over the limit): no flush happens, no flush message is logged, and
the four old events are still buffered under the new one (buffer length
5 instead of 1). -/
theorem claim_C1_counterexample :
    ((LLMObsSpanWriter.enqueue ⟨[LLMObsSpanEncoder._init_buffer]⟩ cexFillerA).state =
        ⟨[⟨[cexFillerA], 1048577⟩]⟩ ∧
      (LLMObsSpanWriter.enqueue ⟨[⟨[cexFillerA], 1048577⟩]⟩ cexFillerA).state =
        ⟨[⟨[cexFillerA, cexFillerA], 2097154⟩]⟩ ∧
      (LLMObsSpanWriter.enqueue ⟨[⟨[cexFillerA, cexFillerA], 2097154⟩]⟩
          cexFillerA).state =
        ⟨[⟨[cexFillerA, cexFillerA, cexFillerA], 3145731⟩]⟩ ∧
      (LLMObsSpanWriter.enqueue ⟨[⟨[cexFillerA, cexFillerA, cexFillerA], 3145731⟩]⟩
          cexFillerB).state = ⟨[cexMid]⟩) ∧
    ((dumpsSpanEvent cexBig).map String.length = .ok 1048807 ∧
      EVP_EVENT_SIZE_LIMIT ≤ 1048807) ∧
    ((dumpsSpanEvent (_truncate_span_event cexBig)).map String.length =
      .ok 1049026) ∧
    EVP_PAYLOAD_SIZE_LIMIT < cexMid.buffer_size + 1049026 ∧
    LogEvent.debugFlushLimit ∉
      (LLMObsSpanWriter.enqueue ⟨[cexMid]⟩ cexBig).logs ∧
    ((LLMObsSpanWriter.enqueue ⟨[cexMid]⟩ cexBig).state.clients.map
      (fun c => c.buffer.length) = [5]) := by
  obtain ⟨sA, hdA0, hlA⟩ := dumps_fillerEvent_ok 1048344
  have hdA : dumpsSpanEvent cexFillerA = .ok sA := hdA0
  obtain ⟨sB, hdB0, hlB⟩ := dumps_fillerEvent_ok 1048109
  have hdB : dumpsSpanEvent cexFillerB = .ok sB := hdB0
  obtain ⟨sS, hdS0, hlS⟩ := dumps_fillerEvent_ok 1048576
  have hdS : dumpsSpanEvent cexBig = .ok sS := hdS0
  obtain ⟨tS, hdT0, hlT⟩ := dumps_truncFillerEvent_ok 1048576
  have hdT : dumpsSpanEvent (_truncate_span_event cexBig) = .ok tS := hdT0
  have e1 : LLMObsSpanWriter.enqueue ⟨[LLMObsSpanEncoder._init_buffer]⟩ cexFillerA =
      ⟨⟨[⟨[cexFillerA], 1048577⟩]⟩, [], false⟩ := by
    rw [enqueue_no_flush_no_trunc _ _ sA hdA
      (by rw [hlA]; norm_num [EVP_EVENT_SIZE_LIMIT])
      (by rw [hlA]; norm_num [EVP_PAYLOAD_SIZE_LIMIT, LLMObsSpanEncoder._init_buffer])
      (by norm_num [LLMObsSpanEncoder._init_buffer, BUFFER_LIMIT])]
    simp [LLMObsSpanEncoder._init_buffer, hlA]
  have e2 : LLMObsSpanWriter.enqueue ⟨[⟨[cexFillerA], 1048577⟩]⟩ cexFillerA =
      ⟨⟨[⟨[cexFillerA, cexFillerA], 2097154⟩]⟩, [], false⟩ := by
    rw [enqueue_no_flush_no_trunc _ _ sA hdA
      (by rw [hlA]; norm_num [EVP_EVENT_SIZE_LIMIT])
      (by rw [hlA]; norm_num [EVP_PAYLOAD_SIZE_LIMIT])
      (by norm_num [BUFFER_LIMIT])]
    simp [hlA]
  have e3 : LLMObsSpanWriter.enqueue ⟨[⟨[cexFillerA, cexFillerA], 2097154⟩]⟩ cexFillerA =
      ⟨⟨[⟨[cexFillerA, cexFillerA, cexFillerA], 3145731⟩]⟩, [], false⟩ := by
    rw [enqueue_no_flush_no_trunc _ _ sA hdA
      (by rw [hlA]; norm_num [EVP_EVENT_SIZE_LIMIT])
      (by rw [hlA]; norm_num [EVP_PAYLOAD_SIZE_LIMIT])
      (by norm_num [BUFFER_LIMIT])]
    simp [hlA]
  have e4 : LLMObsSpanWriter.enqueue
      ⟨[⟨[cexFillerA, cexFillerA, cexFillerA], 3145731⟩]⟩ cexFillerB =
      ⟨⟨[⟨[cexFillerA, cexFillerA, cexFillerA, cexFillerB], 4194073⟩]⟩, [], false⟩ := by
    rw [enqueue_no_flush_no_trunc _ _ sB hdB
      (by rw [hlB]; norm_num [EVP_EVENT_SIZE_LIMIT])
      (by rw [hlB]; norm_num [EVP_PAYLOAD_SIZE_LIMIT])
      (by norm_num [BUFFER_LIMIT])]
    simp [hlB]
  have eBig : LLMObsSpanWriter.enqueue ⟨[cexMid]⟩ cexBig =
      ⟨⟨[⟨[cexFillerA, cexFillerA, cexFillerA, cexFillerB] ++
          [_truncate_span_event cexBig], 4194073 + (tS.length + 2)⟩]⟩,
        [.warnEventTooLarge sS.length], false⟩ := by
    rw [show (⟨[cexMid]⟩ : SpanWriterState) =
      ⟨[⟨[cexFillerA, cexFillerA, cexFillerA, cexFillerB], 4194073⟩]⟩ from rfl]
    rw [enqueue_no_flush_trunc _ _ sS tS hdS hdT
      (by rw [hlS]; norm_num [EVP_EVENT_SIZE_LIMIT])
      (by rw [hlS]; norm_num [EVP_PAYLOAD_SIZE_LIMIT])
      (by norm_num [BUFFER_LIMIT])]
  refine ⟨⟨?_, ?_, ?_, ?_⟩, ⟨?_, ?_⟩, ?_, ?_, ?_, ?_⟩
  · rw [e1]
  · rw [e2]
  · rw [e3]
  · rw [e4]
    rfl
  · rw [hdS]
    simp [Except.map, hlS]
  · norm_num [EVP_EVENT_SIZE_LIMIT]
  · rw [hdT]
    simp [Except.map, hlT]
  · norm_num [EVP_PAYLOAD_SIZE_LIMIT, cexMid]
  · rw [eBig]
    simp
  · rw [eBig]
    simp

end LLMObs
